import Mathlib

/-!
Shallow embedding of `src/scripts/android_skip_helper_autojs.js`, an Auto.js
script that polls the accessibility tree for clickable elements whose
text/description/identifier contains a configured keyword and taps the first
element it can successfully click.

JavaScript strings are modelled as `List Char`; optional element attributes
(JS `null`/`undefined`) as `Option`; times in milliseconds as `Int`
(JS number subtraction on epoch timestamps); the host primitives
`click(x, y)` (coordinate tap) as an explicit function parameter, and
`toast`/`log`/`sleep` as entries of an action trace.  The runtime's
`String.prototype.trim` whitespace class is modelled in full;
`String.prototype.toLowerCase` is modelled concretely on the Latin and
Cyrillic blocks the script exercises, and the theorems about case mapping
are additionally parametric in the lowercasing function, assuming of it
only a property of the full ECMA-262 conversion.
-/

namespace SkipHelper

/-- A JavaScript string, modelled as its list of characters. -/
abbrev JsString := List Char

/-- Models `String.prototype.toLowerCase` on one character, on the blocks
the script's keywords and realistic inputs exercise: Basic Latin `A`-`Z`,
Latin-1 `À`-`Þ` (except `×`), and Cyrillic `Ѐ`-`Џ` and `А`-`Я`.  On these
blocks the Unicode conversion is exactly this context-free shift; outside
them this model is the identity, while the host primitive extends to all
of Unicode.  Theorems whose content is the case mapping itself therefore
abstract the primitive as a parameter constrained by a fact true of the
full ECMA-262 conversion, and use this model only as an instantiation. -/
def jsToLowerChar (c : Char) : Char :=
  if 65 ≤ c.toNat ∧ c.toNat ≤ 90 then Char.ofNat (c.toNat + 32)
  else if 192 ≤ c.toNat ∧ c.toNat ≤ 222 ∧ c.toNat ≠ 215 then
    Char.ofNat (c.toNat + 32)
  else if 1040 ≤ c.toNat ∧ c.toNat ≤ 1071 then Char.ofNat (c.toNat + 32)
  else if 1024 ≤ c.toNat ∧ c.toNat ≤ 1039 then Char.ofNat (c.toNat + 80)
  else c

/-- Models `String.prototype.toLowerCase` (see `jsToLowerChar`). -/
def jsToLower (s : JsString) : JsString := s.map jsToLowerChar

/-- The whitespace class removed by `String.prototype.trim`: the full
ECMA-262 set, `WhiteSpace` (TAB, VT, FF, SP, NBSP, BOM, and the Unicode
space separators) together with `LineTerminator` (LF, CR, LS, PS). -/
def isJsSpace (c : Char) : Bool :=
  c.toNat == 0x09 || c.toNat == 0x0A || c.toNat == 0x0B ||
    c.toNat == 0x0C || c.toNat == 0x0D || c.toNat == 0x20 ||
    c.toNat == 0xA0 || c.toNat == 0x1680 ||
    (0x2000 ≤ c.toNat && c.toNat ≤ 0x200A) ||
    c.toNat == 0x2028 || c.toNat == 0x2029 || c.toNat == 0x202F ||
    c.toNat == 0x205F || c.toNat == 0x3000 || c.toNat == 0xFEFF

/-- Models `String.prototype.trim`: drop whitespace from both ends. -/
def jsTrim (s : JsString) : JsString :=
  ((s.dropWhile isJsSpace).reverse.dropWhile isJsSpace).reverse

/-- Models `hay.startsWith(pat)`: used to build up `indexOf`. -/
def leadsWith : JsString → JsString → Bool
  | [], _ => true
  | _ :: _, [] => false
  | a :: as, b :: bs => a == b && leadsWith as bs

/-- Models `hay.indexOf(pat) !== -1`: `pat` occurs contiguously in `hay`. -/
def occurs (pat : JsString) : JsString → Bool
  | [] => pat.isEmpty
  | c :: t => leadsWith pat (c :: t) || occurs pat t

/-- `CHECK_INTERVAL_MS` from the script (line 21). -/
def CHECK_INTERVAL_MS : Int := 800

/-- `TOAST_INTERVAL_MS` from the script (line 22). -/
def TOAST_INTERVAL_MS : Int := 5000

/-- `DEFAULT_KEYWORDS` from the script (lines 12-19). -/
def DEFAULT_KEYWORDS : List JsString :=
  ["skip".data, "skip ad".data, "skip ads".data,
   "пропустить".data, "закрыть".data, "close".data]

/-- `hasKeyword(text, keywords)` (lines 39-46): `none`/empty input is falsy
and yields `false`; otherwise lowercase the input and return whether some
keyword occurs in it (`low.indexOf(keywords[i]) !== -1`). -/
def hasKeyword (text : Option JsString) (keywords : List JsString) : Bool :=
  match text with
  | none => false
  | some t =>
    if t.isEmpty then false
    else keywords.any (fun k => occurs k (jsToLower t))

/-- `normalizeKeywords(list)` (lines 82-84): lowercase and trim each entry,
then drop the empty ones. -/
def normalizeKeywords (list : List JsString) : List JsString :=
  (list.map (fun x => jsTrim (jsToLower x))).filter (fun x => 0 < x.length)

/-- `hasKeyword` with the host's `toLowerCase` primitive made explicit as
the parameter `low`; `hasKeyword = hasKeywordL jsToLower` definitionally.
Claims about case-insensitivity are proved for every `low` satisfying the
ECMA-262 conversion's properties, not just the concrete model. -/
def hasKeywordL (low : JsString → JsString) (text : Option JsString)
    (keywords : List JsString) : Bool :=
  match text with
  | none => false
  | some t =>
    if t.isEmpty then false
    else keywords.any (fun k => occurs k (low t))

/-- `normalizeKeywords` with the host's `toLowerCase` primitive made
explicit as the parameter `low`;
`normalizeKeywords = normalizeKeywordsL jsToLower` definitionally. -/
def normalizeKeywordsL (low : JsString → JsString) (list : List JsString) :
    List JsString :=
  (list.map (fun x => jsTrim (low x))).filter (fun x => 0 < x.length)

example : jsToLower "SKIP Ad".data = "skip ad".data := by decide

example : jsToLower "Пропустить".data = "пропустить".data := by decide

example : jsToLower "ЗАКРЫТЬ".data = "закрыть".data := by decide

example : jsTrim "  skip ".data = "skip".data := by decide

example : occurs "skip".data "xxskip adyy".data = true := by decide

example : hasKeyword (some "Close This".data) ["close".data] = true := by decide

example : hasKeyword (some "nothing".data) ["close".data] = false := by decide

example : normalizeKeywords ["  SKip ".data, "  ".data] = ["skip".data] := by
  decide

/-- An on-screen rectangle as the host's `bounds()` returns it; `centerX()`
and `centerY()` are modelled as the host-computed center coordinates. -/
structure Rect where
  centerX : Int
  centerY : Int
deriving DecidableEq, Repr

/-- A clickable accessibility node as the script reads it: `text()`,
`desc()`, `id()` may be `null`, `bounds()` may be `null`, and `click()`
reports success or failure.  `click` holds the (fixed) outcome the host
reports for the native click dispatch on this node. -/
structure JsNode where
  text : Option JsString
  desc : Option JsString
  id : Option JsString
  click : Bool
  bounds : Option Rect
deriving DecidableEq, Repr

/-- `clickNode(node)` (lines 48-55).  The coordinate-tap primitive
`click(x, y)` of the host is the parameter `tap`.  Result: the boolean the
function returns, paired with the list of coordinate taps it issued. -/
def clickNode (tap : Int → Int → Bool) (node : Option JsNode) :
    Bool × List (Int × Int) :=
  match node with
  | none => (false, [])
  | some n =>
    if n.click then (true, [])
    else
      match n.bounds with
      | none => (false, [])
      | some b => (tap b.centerX b.centerY, [(b.centerX, b.centerY)])

/-- The `matched` test of `findAndTap` (lines 62-65): any of text,
description, identifier containing a keyword suffices. -/
def matchedNode (keywords : List JsString) (n : JsNode) : Bool :=
  hasKeyword n.text keywords || hasKeyword n.desc keywords ||
    hasKeyword n.id keywords

/-- `findAndTap(keywords)` (lines 57-80), with the clickable-element
snapshot passed explicitly.  The loop skips unmatched nodes, calls
`clickNode` on each matched node, and returns `true` as soon as one tap
succeeds; if the loop ends it returns `false`.  `clickNode` is pure here,
so its repeated projections denote the one call's result.  Result: the
returned boolean, the nodes on which a click was attempted (in order), and
the coordinate taps issued. -/
def findAndTap (tap : Int → Int → Bool) (keywords : List JsString) :
    List JsNode → Bool × List JsNode × List (Int × Int)
  | [] => (false, [], [])
  | n :: rest =>
    if matchedNode keywords n then
      if (clickNode tap (some n)).1 then (true, [n], (clickNode tap (some n)).2)
      else
        ((findAndTap tap keywords rest).1,
         n :: (findAndTap tap keywords rest).2.1,
         (clickNode tap (some n)).2 ++ (findAndTap tap keywords rest).2.2)
    else findAndTap tap keywords rest

/-- `notifyThrottled(message)` (lines 31-37), with the clock reading `t`
(`now()`) and the mutable `lastToastAt` passed explicitly.  Returns the
toast actually shown (if any) and the new `lastToastAt`. -/
def notifyThrottled (t : Int) (message : JsString) (lastToastAt : Int) :
    Option JsString × Int :=
  if TOAST_INTERVAL_MS ≤ t - lastToastAt then (some message, t)
  else (none, lastToastAt)

/-- Initial value of `lastToastAt` (line 24). -/
def lastToastAtInit : Int := 0

/-- The mutable state the loop driver touches. -/
structure LoopState where
  lastToastAt : Int
deriving DecidableEq, Repr

/-- Observable host effects of the driver: log lines, toasts actually
shown, invocations of `notifyThrottled`, and sleeps. -/
inductive Action where
  | log (msg : JsString)
  | toast (msg : JsString)
  | notifyCall (msg : JsString)
  | doze (ms : Int)
deriving DecidableEq, Repr

/-- A shown toast, if any, as a trace fragment. -/
def toastOf : Option JsString → List Action
  | none => []
  | some m => [Action.toast m]

/-- The no-match toast text (line 98). -/
def noMatchMsg : JsString := "Skip helper: no matching button".data

/-- The catch-branch log text up to the appended error (line 101). -/
def warnLogPre : JsString := "Warning: ".data

/-- The catch-branch toast text up to the appended error (line 102). -/
def warnToastPre : JsString := "Skip helper warning: ".data

/-- One iteration of the `while (true)` body of `main` (lines 94-105).
`t` is the clock reading `notifyThrottled` would observe this cycle, and
`outcome` is what the `try` block's `findAndTap` call produced: `Except.ok
pressed` when it returned, `Except.error e` when it threw.  Returns the
updated state and the cycle's action trace. -/
def cycleStep (t : Int) (outcome : Except JsString Bool) (st : LoopState) :
    LoopState × List Action :=
  match outcome with
  | Except.ok pressed =>
    if pressed then (st, [Action.doze CHECK_INTERVAL_MS])
    else
      ({ lastToastAt := (notifyThrottled t noMatchMsg st.lastToastAt).2 },
       Action.notifyCall noMatchMsg ::
         toastOf (notifyThrottled t noMatchMsg st.lastToastAt).1 ++
           [Action.doze CHECK_INTERVAL_MS])
  | Except.error e =>
      ({ lastToastAt :=
           (notifyThrottled t (warnToastPre ++ e) st.lastToastAt).2 },
       Action.log (warnLogPre ++ e) ::
         Action.notifyCall (warnToastPre ++ e) ::
           toastOf (notifyThrottled t (warnToastPre ++ e) st.lastToastAt).1 ++
             [Action.doze CHECK_INTERVAL_MS])

/-- The loop driver: run one cycle per entry of `events` (each entry gives
that cycle's clock reading and its `findAndTap` outcome), collecting each
cycle's trace.  The loop itself is unbounded (`while (true)`); `runLoop`
gives its behaviour on any finite prefix of cycles. -/
def runLoop (st : LoopState) :
    List (Int × Except JsString Bool) → LoopState × List (List Action)
  | [] => (st, [])
  | (t, o) :: rest =>
    ((runLoop (cycleStep t o st).1 rest).1,
     (cycleStep t o st).2 :: (runLoop (cycleStep t o st).1 rest).2)

/-- `JSON.stringify` on an array of (escape-free) strings, as used by the
startup log line 90. -/
def jsonStringifyStrings (l : List JsString) : JsString :=
  '[' :: (List.intercalate ",".data
    (l.map (fun s => '"' :: (s ++ ['"'])))) ++ [']']

/-- The startup toast text (line 89). -/
def startMsg : JsString := "Skip helper started".data

/-- The prelude of `main` before the loop (lines 87-92): wait for the
automation service, normalize the keywords, toast, and log twice.  None of
it touches `lastToastAt`, which keeps its initial value. -/
def mainStartup : LoopState × List Action :=
  ({ lastToastAt := lastToastAtInit },
   [Action.toast startMsg,
    Action.log ("Keywords: ".data ++
      jsonStringifyStrings (normalizeKeywords DEFAULT_KEYWORDS)),
    Action.log "Press volume up in Auto.js to stop script".data])

/-! ## Helper lemmas -/

theorem jsToLowerChar_idem (c : Char) :
    jsToLowerChar (jsToLowerChar c) = jsToLowerChar c := by
  unfold jsToLowerChar
  by_cases h1 : 65 ≤ c.toNat ∧ c.toNat ≤ 90
  · rw [if_pos h1]
    obtain ⟨ha, hb⟩ := h1
    generalize c.toNat = n at ha hb
    interval_cases n <;> decide
  · rw [if_neg h1]
    by_cases h2 : 192 ≤ c.toNat ∧ c.toNat ≤ 222 ∧ c.toNat ≠ 215
    · rw [if_pos h2]
      obtain ⟨ha, hb, hc⟩ := h2
      generalize c.toNat = n at ha hb hc
      interval_cases n <;> first | exact absurd rfl hc | decide
    · rw [if_neg h2]
      by_cases h3 : 1040 ≤ c.toNat ∧ c.toNat ≤ 1071
      · rw [if_pos h3]
        obtain ⟨ha, hb⟩ := h3
        generalize c.toNat = n at ha hb
        interval_cases n <;> decide
      · rw [if_neg h3]
        by_cases h4 : 1024 ≤ c.toNat ∧ c.toNat ≤ 1039
        · rw [if_pos h4]
          obtain ⟨ha, hb⟩ := h4
          generalize c.toNat = n at ha hb
          interval_cases n <;> decide
        · rw [if_neg h4, if_neg h1, if_neg h2, if_neg h3, if_neg h4]

theorem map_fixed {α : Type} (f : α → α) :
    ∀ l : List α, (∀ a ∈ l, f a = a) → l.map f = l
  | [], _ => rfl
  | a :: t, h => by
    rw [List.map_cons, h a (List.mem_cons_self a t),
      map_fixed f t (fun b hb => h b (List.mem_cons_of_mem a hb))]

theorem mem_of_mem_jsTrim {c : Char} {s : JsString} (h : c ∈ jsTrim s) :
    c ∈ s := by
  unfold jsTrim at h
  rw [List.mem_reverse] at h
  obtain ⟨u, hu⟩ :=
    List.dropWhile_suffix (l := (s.dropWhile isJsSpace).reverse) isJsSpace
  have h2 : c ∈ (s.dropWhile isJsSpace).reverse := by
    rw [← hu]
    exact List.mem_append_right u h
  rw [List.mem_reverse] at h2
  obtain ⟨v, hv⟩ := List.dropWhile_suffix (l := s) isJsSpace
  rw [← hv]
  exact List.mem_append_right v h2

theorem lower_trim_lower (x : JsString) :
    jsToLower (jsTrim (jsToLower x)) = jsTrim (jsToLower x) := by
  apply map_fixed
  intro c hc
  obtain ⟨c0, _, rfl⟩ := List.mem_map.mp (mem_of_mem_jsTrim hc)
  exact jsToLowerChar_idem c0

theorem jsTrim_eq (s : JsString) :
    jsTrim s = List.rdropWhile isJsSpace (List.dropWhile isJsSpace s) := rfl

theorem dropWhile_append_eq_self {p : Char → Bool} {l t : List Char}
    (h : List.dropWhile p (l ++ t) = l ++ t) (hl : l ≠ []) :
    List.dropWhile p l = l := by
  cases l with
  | nil => exact absurd rfl hl
  | cons a as =>
    rw [List.cons_append, List.dropWhile_cons] at h
    rw [List.dropWhile_cons]
    by_cases hp : p a = true
    · exfalso
      rw [if_pos hp] at h
      obtain ⟨u, hu⟩ := List.dropWhile_suffix (l := as ++ t) p
      rw [h] at hu
      have := congrArg List.length hu
      simp [List.length_append] at this
      omega
    · simp [hp]

theorem trimLeft_of_rdropWhile {l : List Char} :
    List.dropWhile isJsSpace
        (List.rdropWhile isJsSpace (List.dropWhile isJsSpace l)) =
      List.rdropWhile isJsSpace (List.dropWhile isJsSpace l) := by
  obtain ⟨t, ht⟩ :=
    List.rdropWhile_prefix isJsSpace (List.dropWhile isJsSpace l)
  cases hB : List.rdropWhile isJsSpace (List.dropWhile isJsSpace l) with
  | nil => simp
  | cons b bs =>
    rw [hB] at ht
    apply dropWhile_append_eq_self (t := t)
    · rw [ht]
      rw [List.dropWhile_idempotent]
    · exact List.cons_ne_nil b bs

theorem jsTrim_idem (s : JsString) : jsTrim (jsTrim s) = jsTrim s := by
  simp only [jsTrim_eq]
  rw [trimLeft_of_rdropWhile, List.rdropWhile_idempotent]

theorem jsNormalizeOne_idem (x : JsString) :
    jsTrim (jsToLower (jsTrim (jsToLower x))) = jsTrim (jsToLower x) := by
  rw [lower_trim_lower, jsTrim_idem]

theorem normalizeKeywords_lowered {k : JsString} {l : List JsString}
    (hk : k ∈ normalizeKeywords l) : jsToLower k = k := by
  obtain ⟨x, _, rfl⟩ := List.mem_map.mp (List.mem_of_mem_filter hk)
  exact lower_trim_lower x

theorem normalizeKeywordsL_lowered {low : JsString → JsString}
    (hlow : ∀ u, low (jsTrim (low u)) = jsTrim (low u)) {k : JsString}
    {l : List JsString} (hk : k ∈ normalizeKeywordsL low l) : low k = k := by
  obtain ⟨x, _, rfl⟩ := List.mem_map.mp (List.mem_of_mem_filter hk)
  exact hlow x

theorem leadsWith_iff (pat : JsString) :
    ∀ hay : JsString, leadsWith pat hay = true ↔ ∃ r, hay = pat ++ r := by
  induction pat with
  | nil =>
    intro hay
    simp [leadsWith]
  | cons a as ih =>
    intro hay
    cases hay with
    | nil =>
      simp [leadsWith]
    | cons b bs =>
      simp only [leadsWith, Bool.and_eq_true, beq_iff_eq, ih bs,
        List.cons_append, List.cons.injEq]
      constructor
      · rintro ⟨rfl, r, rfl⟩
        exact ⟨r, rfl, rfl⟩
      · rintro ⟨r, rfl, rfl⟩
        exact ⟨rfl, r, rfl⟩

theorem occurs_iff (pat : JsString) :
    ∀ hay : JsString, occurs pat hay = true ↔ ∃ l r, hay = l ++ (pat ++ r) := by
  intro hay
  induction hay with
  | nil =>
    simp only [occurs, List.isEmpty_iff]
    constructor
    · rintro rfl
      exact ⟨[], [], rfl⟩
    · rintro ⟨l, r, hr⟩
      rcases List.append_eq_nil.mp hr.symm with ⟨-, h2⟩
      exact (List.append_eq_nil.mp h2).1
  | cons c t ih =>
    simp only [occurs, Bool.or_eq_true, leadsWith_iff, ih]
    constructor
    · rintro (⟨r, hr⟩ | ⟨l, r, hr⟩)
      · exact ⟨[], r, by simp [hr]⟩
      · exact ⟨c :: l, r, by simp [hr]⟩
    · rintro ⟨l, r, hr⟩
      cases l with
      | nil =>
        exact Or.inl ⟨r, by simpa using hr⟩
      | cons x xs =>
        rw [List.cons_append] at hr
        obtain ⟨-, ht⟩ := List.cons_eq_cons.mp hr
        exact Or.inr ⟨xs, r, ht⟩

theorem hasKeyword_nil (t : Option JsString) : hasKeyword t [] = false := by
  cases t with
  | none => rfl
  | some s =>
    simp [hasKeyword]

theorem matchedNode_nil (n : JsNode) : matchedNode [] n = false := by
  simp [matchedNode, hasKeyword_nil]

/-! ## Claims -/

/-- Claim C6: for every element whose native click capability reports
success, `clickNode` returns `true`, issues no coordinate tap, and the
result is the same whatever the element's bounds are (bounds are never
consulted). -/
theorem clickNode_native_success (tap : Int → Int → Bool) (n : JsNode)
    (hc : n.click = true) :
    clickNode tap (some n) = (true, []) ∧
      ∀ b : Option Rect, clickNode tap (some { n with bounds := b }) = (true, []) := by
  constructor
  · simp [clickNode, hc]
  · intro b
    simp [clickNode, hc]

/-- Witness for C6 at a concrete node. -/
theorem clickNode_native_success_witness :
    clickNode (fun _ _ => false)
        (some { text := some "skip".data, desc := none, id := none,
                click := true, bounds := some { centerX := 3, centerY := 4 } }) =
      (true, []) :=
  (clickNode_native_success (fun _ _ => false)
      { text := some "skip".data, desc := none, id := none,
        click := true, bounds := some { centerX := 3, centerY := 4 } } rfl).1

/-- Claim C5: for every element whose native click reports failure and
whose bounds are present, `clickNode` issues one synthetic tap at the
bounds' center and returns that tap's result. -/
theorem clickNode_center_fallback (tap : Int → Int → Bool) (n : JsNode)
    (b : Rect) (hc : n.click = false) (hb : n.bounds = some b) :
    clickNode tap (some n) = (tap b.centerX b.centerY, [(b.centerX, b.centerY)]) := by
  simp [clickNode, hc, hb]

/-- Witness for C5: a failing-click node with bounds centered at
`(100, 50)` gets a coordinate tap there, whose result is returned. -/
theorem clickNode_center_fallback_witness :
    clickNode (fun x y => x == 100 && y == 50)
        (some { text := some "Skip Ad".data, desc := none, id := none,
                click := false, bounds := some { centerX := 100, centerY := 50 } }) =
      (true, [(100, 50)]) :=
  (clickNode_center_fallback (fun x y => x == 100 && y == 50)
      { text := some "Skip Ad".data, desc := none, id := none,
        click := false, bounds := some { centerX := 100, centerY := 50 } }
      { centerX := 100, centerY := 50 } rfl rfl).trans (by decide)

/-- Claim C7: for every element whose native click reports failure and
whose bounds are absent, `clickNode` returns `false` and issues no
coordinate tap. -/
theorem clickNode_absent_bounds (tap : Int → Int → Bool) (n : JsNode)
    (hc : n.click = false) (hb : n.bounds = none) :
    clickNode tap (some n) = (false, []) := by
  simp [clickNode, hc, hb]

/-- Witness for C7 at a concrete node. -/
theorem clickNode_absent_bounds_witness :
    clickNode (fun _ _ => true)
        (some { text := some "close".data, desc := none, id := none,
                click := false, bounds := none }) =
      (false, []) :=
  clickNode_absent_bounds (fun _ _ => true)
    { text := some "close".data, desc := none, id := none,
      click := false, bounds := none } rfl rfl

/-- Claim C4: for two `notifyThrottled` calls where the first shows its
toast (elapsed time at least the interval): a second call strictly less
than the interval later shows nothing and leaves the timestamp unchanged;
a second call at or beyond the interval shows its toast and updates the
timestamp. -/
theorem notifyThrottled_pair (l0 t1 t2 : Int) (m1 m2 : JsString)
    (h1 : TOAST_INTERVAL_MS ≤ t1 - l0) :
    notifyThrottled t1 m1 l0 = (some m1, t1) ∧
      (t2 - t1 < TOAST_INTERVAL_MS → notifyThrottled t2 m2 t1 = (none, t1)) ∧
      (TOAST_INTERVAL_MS ≤ t2 - t1 → notifyThrottled t2 m2 t1 = (some m2, t2)) := by
  refine ⟨?_, ?_, ?_⟩
  · simp [notifyThrottled, h1]
  · intro h2
    simp [notifyThrottled, not_le.mpr h2]
  · intro h2
    simp [notifyThrottled, h2]

/-- Witness for C4: first call at 6000 ms (timestamp 0) shows; a second at
7000 ms is silent; a second at 11000 ms shows. -/
theorem notifyThrottled_pair_witness :
    notifyThrottled 6000 noMatchMsg 0 = (some noMatchMsg, 6000) ∧
      notifyThrottled 7000 startMsg 6000 = (none, 6000) ∧
      notifyThrottled 11000 startMsg 6000 = (some startMsg, 11000) :=
  ⟨(notifyThrottled_pair 0 6000 7000 noMatchMsg startMsg (by decide)).1,
   (notifyThrottled_pair 0 6000 7000 noMatchMsg startMsg (by decide)).2.1 (by decide),
   (notifyThrottled_pair 0 6000 11000 noMatchMsg startMsg (by decide)).2.2 (by decide)⟩

/-- Claim C9: with the empty keyword list, `hasKeyword` is `false` on any
input, and a scan cycle attempts no click, issues no tap, and reports no
match. -/
theorem empty_keywords_no_tap (t : Option JsString) (tap : Int → Int → Bool)
    (snap : List JsNode) :
    hasKeyword t [] = false ∧ findAndTap tap [] snap = (false, [], []) := by
  refine ⟨hasKeyword_nil t, ?_⟩
  induction snap with
  | nil => rfl
  | cons n rest ih =>
    simp [findAndTap, matchedNode_nil, ih]

/-- Claim C2: any error thrown during a cycle's scan-and-tap step is
logged (`Warning: ` + error) and handed to the throttled notifier
(`Skip helper warning: ` + error), and the loop driver still completes one
full cycle per event, whatever mix of successes and errors occurs. -/
theorem cycle_error_caught (t : Int) (e : JsString) (st : LoopState)
    (events : List (Int × Except JsString Bool)) (st0 : LoopState) :
    Action.log (warnLogPre ++ e) ∈ (cycleStep t (Except.error e) st).2 ∧
      Action.notifyCall (warnToastPre ++ e) ∈ (cycleStep t (Except.error e) st).2 ∧
      (runLoop st0 events).2.length = events.length := by
  refine ⟨by simp [cycleStep], by simp [cycleStep], ?_⟩
  induction events generalizing st0 with
  | nil => rfl
  | cons ev rest ih =>
    simp [runLoop, ih]

/-- Claim C10: `lastToastAt` starts at 0, the startup toast leaves it
untouched (no `notifyThrottled` call occurs before the loop), and hence
the first `notifyThrottled` call shows its toast whenever the clock
reading is at least the throttle interval. -/
theorem first_notify_shows (t : Int) (msg : JsString)
    (h : TOAST_INTERVAL_MS ≤ t) :
    lastToastAtInit = 0 ∧
      mainStartup.1.lastToastAt = lastToastAtInit ∧
      Action.toast startMsg ∈ mainStartup.2 ∧
      (∀ m, Action.notifyCall m ∉ mainStartup.2) ∧
      notifyThrottled t msg mainStartup.1.lastToastAt = (some msg, t) := by
  refine ⟨rfl, rfl, by simp [mainStartup], ?_, ?_⟩
  · intro m
    simp [mainStartup]
  · show notifyThrottled t msg lastToastAtInit = (some msg, t)
    simp [notifyThrottled, lastToastAtInit]
    omega

/-- Witness for C10 at clock reading 5000 ms. -/
theorem first_notify_shows_witness :
    notifyThrottled 5000 noMatchMsg mainStartup.1.lastToastAt =
      (some noMatchMsg, 5000) :=
  (first_notify_shows 5000 noMatchMsg (by decide)).2.2.2.2

/-- Claim C8: keyword normalization is idempotent.  `normalizeKeywordsL`
is the program's `normalizeKeywords` with the host's `toLowerCase`
primitive explicit (the first conjunct: instantiating it with the model
gives back `normalizeKeywords`); idempotence is proved for every
lowercasing function `low` satisfying the ECMA-262 conversion's property
that lowercasing an already-trimmed, already-lowercased string is the
identity (the conversion is idempotent and trimming cannot introduce
case). -/
theorem normalizeKeywords_idem (low : JsString → JsString)
    (hlow : ∀ u, low (jsTrim (low u)) = jsTrim (low u)) (l : List JsString) :
    (∀ l2, normalizeKeywordsL jsToLower l2 = normalizeKeywords l2) ∧
      normalizeKeywordsL low (normalizeKeywordsL low l) =
        normalizeKeywordsL low l := by
  refine ⟨fun l2 => rfl, ?_⟩
  unfold normalizeKeywordsL
  have h2 :
      (((l.map (fun x => jsTrim (low x))).filter
            (fun x => 0 < x.length)).map (fun x => jsTrim (low x))) =
        (l.map (fun x => jsTrim (low x))).filter (fun x => 0 < x.length) := by
    apply map_fixed
    intro a ha
    obtain ⟨x, _, rfl⟩ := List.mem_map.mp (List.mem_of_mem_filter ha)
    rw [hlow, jsTrim_idem]
  rw [h2]
  apply List.filter_eq_self.mpr
  intro a ha
  exact (List.mem_filter.mp ha).2

/-- Witness for C8 at the concrete model and a Cyrillic keyword list:
normalizing `[" ЗАКРЫТЬ "]` twice equals normalizing it once, and the
model now lowercases Cyrillic as the host primitive does. -/
theorem normalizeKeywords_idem_witness :
    normalizeKeywordsL jsToLower
        (normalizeKeywordsL jsToLower [" ЗАКРЫТЬ ".data]) =
      normalizeKeywordsL jsToLower [" ЗАКРЫТЬ ".data] ∧
      normalizeKeywords ["ЗАКРЫТЬ".data] = ["закрыть".data] :=
  ⟨(normalizeKeywords_idem jsToLower lower_trim_lower [" ЗАКРЫТЬ ".data]).2,
   by decide⟩

/-- Claim C3: against a normalized keyword list, `hasKeyword` rejects
absent and empty input, and accepts a non-empty input exactly when some
keyword of the list occurs case-insensitively (its lowercasing occurs in
the input's lowercasing) as a contiguous substring.  `hasKeywordL` is the
program's `hasKeyword` with the host's `toLowerCase` primitive explicit
(the first conjunct: instantiating it with the model gives back
`hasKeyword`); the equivalence is proved for every lowercasing function
`low` under the same ECMA-262 property as `normalizeKeywords_idem`, so it
covers the host's Unicode-wide conversion, not only the model's blocks. -/
theorem hasKeyword_ci (low : JsString → JsString)
    (hlow : ∀ u, low (jsTrim (low u)) = jsTrim (low u))
    (ks0 : List JsString) (s : JsString) :
    (∀ t ks, hasKeywordL jsToLower t ks = hasKeyword t ks) ∧
      hasKeywordL low none (normalizeKeywordsL low ks0) = false ∧
      hasKeywordL low (some []) (normalizeKeywordsL low ks0) = false ∧
      (s ≠ [] →
        (hasKeywordL low (some s) (normalizeKeywordsL low ks0) = true ↔
          ∃ k ∈ normalizeKeywordsL low ks0,
            ∃ l r, low s = l ++ (low k ++ r))) := by
  refine ⟨fun t ks => rfl, rfl, rfl, ?_⟩
  intro hs
  have hne : s.isEmpty = false := by
    cases s with
    | nil => exact absurd rfl hs
    | cons a t => rfl
  rw [show hasKeywordL low (some s) (normalizeKeywordsL low ks0) =
        (normalizeKeywordsL low ks0).any (fun k => occurs k (low s)) by
      simp [hasKeywordL, hne]]
  rw [List.any_eq_true]
  constructor
  · rintro ⟨k, hk, hocc⟩
    obtain ⟨l, r, hr⟩ := (occurs_iff k (low s)).mp hocc
    exact ⟨k, hk, l, r, by rw [normalizeKeywordsL_lowered hlow hk]; exact hr⟩
  · rintro ⟨k, hk, l, r, hr⟩
    rw [normalizeKeywordsL_lowered hlow hk] at hr
    exact ⟨k, hk, (occurs_iff k (low s)).mpr ⟨l, r, hr⟩⟩

/-- Witness for C3 at the concrete model: the Cyrillic keyword
`"пропустить"` matches the title-cased input `"Пропустить"`, as the host
primitive's case-insensitivity demands. -/
theorem hasKeyword_ci_witness :
    hasKeywordL jsToLower (some "Пропустить".data)
        (normalizeKeywordsL jsToLower ["пропустить".data]) = true ∧
      hasKeyword (some "Пропустить".data) ["пропустить".data] = true :=
  ⟨((hasKeyword_ci jsToLower lower_trim_lower ["пропустить".data]
        "Пропустить".data).2.2.2 (by decide)).mpr
      ⟨"пропустить".data, by decide, [], [], by decide⟩,
   by decide⟩

/-- Claim C1 counterexample: with keyword list `["skip"]` and a snapshot
of two matching elements where the first element's click dispatch fails
(native click fails, no bounds) and the second's succeeds, the scan does
attempt the second element, returns `true`, and the cycle does not invoke
the throttled notifier — contradicting "without attempting any further
element". -/
theorem findAndTap_first_match_cex :
    matchedNode ["skip".data]
        { text := some "skip".data, desc := none, id := none,
          click := false, bounds := none } = true ∧
      (clickNode (fun _ _ => false)
          (some { text := some "skip".data, desc := none, id := none,
                  click := false, bounds := none })).1 = false ∧
      findAndTap (fun _ _ => false) ["skip".data]
          [{ text := some "skip".data, desc := none, id := none,
             click := false, bounds := none },
           { text := some "skip".data, desc := none, id := none,
             click := true, bounds := none }] =
        (true,
         [{ text := some "skip".data, desc := none, id := none,
            click := false, bounds := none },
          { text := some "skip".data, desc := none, id := none,
            click := true, bounds := none }],
         []) ∧
      (cycleStep 0 (Except.ok true) { lastToastAt := 0 }).2 =
        [Action.doze CHECK_INTERVAL_MS] := by
  decide

/-- Claim C1 (amended): the scan attempts every matching element in
enumeration order until a click dispatch succeeds; it reports no match
(`false`) exactly when every matching element's dispatch fails, and only
then does the cycle invoke the throttled notifier. -/
theorem findAndTap_tries_all (tap : Int → Int → Bool) (ks : List JsString)
    (snap : List JsNode) :
    ((findAndTap tap ks snap).1 = false ↔
      ∀ n ∈ snap, matchedNode ks n = true → (clickNode tap (some n)).1 = false) ∧
      ∀ t l, Action.notifyCall noMatchMsg ∈
        (cycleStep t (Except.ok false) { lastToastAt := l }).2 := by
  constructor
  · induction snap with
    | nil => simp [findAndTap]
    | cons n rest ih =>
      by_cases hm : matchedNode ks n = true
      · by_cases hc : (clickNode tap (some n)).1 = true
        · apply iff_of_false
          · simp [findAndTap, hm, hc]
          · intro hall
            exact absurd (hall n (List.mem_cons_self n rest) hm) (by simp [hc])
        · rw [Bool.not_eq_true] at hc
          have he : (findAndTap tap ks (n :: rest)).1 =
              (findAndTap tap ks rest).1 := by
            simp [findAndTap, hm, hc]
          rw [he, ih]
          constructor
          · intro h n' hn' hm'
            rcases List.mem_cons.mp hn' with rfl | hmem
            · exact hc
            · exact h n' hmem hm'
          · intro h n' hn' hm'
            exact h n' (List.mem_cons_of_mem n hn') hm'
      · have he : findAndTap tap ks (n :: rest) = findAndTap tap ks rest := by
          simp [findAndTap, hm]
        rw [he, ih]
        constructor
        · intro h n' hn' hm'
          rcases List.mem_cons.mp hn' with rfl | hmem
          · exact absurd hm' hm
          · exact h n' hmem hm'
        · intro h n' hn' hm'
          exact h n' (List.mem_cons_of_mem n hn') hm'
  · intro t l
    simp [cycleStep]

/-- Witness for the amended C1: a snapshot whose one matching element has
a failing dispatch makes the scan report no match. -/
theorem findAndTap_tries_all_witness :
    (findAndTap (fun _ _ => false) ["skip".data]
        [{ text := some "skip".data, desc := none, id := none,
           click := false, bounds := none }]).1 = false :=
  (findAndTap_tries_all (fun _ _ => false) ["skip".data]
      [{ text := some "skip".data, desc := none, id := none,
         click := false, bounds := none }]).1.mpr (by decide)

end SkipHelper
